import Mathlib

/-!
Verification of the rbxlx postprocessor (src/main.rs): a streaming XML
scanner that finds script-like Item nodes, extracts an embedded Base64
bytecode block from their Source text via a fixed regex, exchanges it with
an external decompilation service, and (nominally) writes an output buffer
at end of run.

The shallow embedding below translates the body of main's event loop.
XML events are modelled as an explicit list; quick_xml's read_text and
read_to_end are modelled by their documented behaviour (text then matching
end tag, or immediate matching end tag; anything else is an error, which
the Rust code unwraps into a panic, modelled as Option.none). The HTTP
exchange is modelled by an oracle function from the submitted bytecode
string to a send result. Wall-clock timing printouts are not modelled; the
console notice is modelled only for the non-success branches, whose text
is time-independent.
-/

namespace OraclePostprocess

/-- An XML event as produced by quick_xml's Reader: Start tags carry their
decoded attributes as key/value pairs; close models Event::End; text models
Event::Text (already unescaped/decoded); other covers every remaining event
kind (Empty, Comment, CData, Decl, PI), which the main loop ignores. -/
inductive XEvent where
  | start (name : String) (attrs : List (String × String))
  | close (name : String)
  | text (s : String)
  | other
deriving DecidableEq, Repr

/-- First attribute whose key matches, as in e.attributes().find(...),
returning its (already decoded) value. -/
def findAttr (attrs : List (String × String)) (key : String) : Option String :=
  (attrs.find? (fun a => a.1 = key)).map (fun a => a.2)

/-- The three recognized class values from main.rs line 66. -/
def recognizedClass (c : String) : Bool :=
  c = "ModuleScript" || c = "LocalScript" || c = "Script"

/-- Literal text the regex must match before the capture group:
the header line, its newline, and the "-- " starting the capture line. -/
def bytecodeHeader : List Char := "-- Bytecode (Base64):\n-- ".data

/-- Attempt to match the regex -- Bytecode \(Base64\):\n-- (.*)\n\n at the
start of cs. Since the dot does not match a newline, the greedy capture
must extend exactly to the end of the line, and the match succeeds only
when that line is followed by two newlines. -/
def extractAt (cs : List Char) : Option (List Char) :=
  if bytecodeHeader.isPrefixOf cs then
    let rest := cs.drop bytecodeHeader.length
    let cap := rest.takeWhile (fun c => c ≠ '\n')
    if ('\n' :: '\n' :: []).isPrefixOf (rest.drop cap.length) then some cap else none
  else none

/-- Leftmost match of the bytecode regex: Regex::captures scans for the
first starting position admitting a match. -/
def findCapture : List Char → Option (List Char)
  | [] => extractAt []
  | c :: t =>
    match extractAt (c :: t) with
    | some cap => some cap
    | none => findCapture t

/-- b64_bytecode: the capture of the leftmost regex match in the source. -/
def findBytecode (s : String) : Option String :=
  (findCapture s.data).map (fun cs => String.mk cs)

/-- Rust str::lines on one split piece: a trailing carriage return directly
before the newline is stripped. -/
def stripCR (l : String) : String :=
  if l.endsWith "\r" then l.dropRight 1 else l

/-- Rust str::lines: split at newlines, strip a carriage return before each
newline, and do not produce a final empty line for a trailing newline. The
last piece (no newline after it) keeps any trailing carriage return. -/
def rustLines (s : String) : List String :=
  let parts := s.splitOn "\n"
  let front := (parts.dropLast).map stripCR
  match parts.getLast? with
  | none => []
  | some "" => front
  | some last => front ++ [last]

/-- HTTP status as discriminated by the match in main.rs lines 119-140. -/
inductive HttpStatus where
  | ok
  | paymentRequired
  | tooManyRequests
  | unauthorized
  | internalServerError
  | badRequest
  | otherCode (code : Nat)
deriving DecidableEq, Repr

/-- A received HTTP response: its status and its body text; body is none
when reading the body fails (dec.text() returning Err). -/
structure HttpResponse where
  status : HttpStatus
  body : Option String
deriving DecidableEq, Repr

/-- Result of Client::send: a response, or a transport failure whose debug
rendering is the carried string. -/
inductive SendResult where
  | success (r : HttpResponse)
  | failure (msg : String)
deriving DecidableEq, Repr

/-- The external service, modelled as a function from the submitted
bytecode string to the outcome of the blocking send. -/
def Oracle : Type := String → SendResult

/-- Outcome of the per-candidate transformation block (main.rs lines
98-150): the resulting source text, the console notice for the non-success
branches (none on a successful decompile, whose printout only reports
wall-clock timing), and whether a service call was made. -/
structure TransformOutcome where
  source : String
  notice : Option String
  called : Bool
deriving DecidableEq, Repr

/-- The transformation block run on one candidate's source: find the
bytecode capture, compute the watermark (first six lines of the original
source joined by newlines), and if a capture exists submit it and dispatch
on the reply status exactly as the Rust match does. -/
def transform (oracle : Oracle) (src : String) : TransformOutcome :=
  let b64_bytecode := findBytecode src
  let watermark := String.intercalate "\n" ((rustLines src).take 6)
  match b64_bytecode with
  | some bytecode =>
    match oracle bytecode with
    | SendResult.success r =>
      match r.status with
      | HttpStatus.ok =>
        let newSrc :=
          match r.body with
          | some deserialized => watermark ++ "\n" ++ deserialized
          | none => src
        { source := newSrc, notice := none, called := true }
      | HttpStatus.paymentRequired =>
        { source := src, notice := some (r.body.getD "unlucky"), called := true }
      | HttpStatus.tooManyRequests =>
        { source := src, notice := some (r.body.getD "unlucky"), called := true }
      | HttpStatus.unauthorized =>
        { source := src, notice := some (r.body.getD "unlucky"), called := true }
      | HttpStatus.internalServerError =>
        { source := src, notice := some "Internal server error", called := true }
      | HttpStatus.badRequest =>
        { source := src, notice := some "Update the app please please please please", called := true }
      | HttpStatus.otherCode code =>
        { source := src, notice := some ("something went wrong: " ++ toString code), called := true }
    | SendResult.failure e =>
      { source := src, notice := some ("error: " ++ e), called := true }
  | none =>
    { source := src, notice := some "no bytecode!", called := false }

/-- Scanner state: the mutable locals of main's loop. finalized is a ghost
record of each finalized candidate (script_name, resulting script_source)
in order; calls counts service calls; output is the output buffer declared
at main.rs line 53, which no statement of the loop ever appends to. -/
structure ScanState where
  in_script : Bool
  script_name : String
  script_source : String
  total : Nat
  decompiled : Nat
  calls : Nat
  finalized : List (String × String)
  output : List UInt8
deriving DecidableEq, Repr

/-- The locals as initialized before the loop. -/
def initState : ScanState :=
  { in_script := false, script_name := "", script_source := "", total := 0,
    decompiled := 0, calls := 0, finalized := [], output := [] }

/-- quick_xml Reader::read_to_end: consume events until the matching End
tag, tracking the depth of same-named nested Start tags; reaching end of
stream is an error. Returns the remaining events after the End tag. -/
def readToEnd (endName : String) : Nat → List XEvent → Option (List XEvent)
  | _, [] => none
  | depth, XEvent.start n _ :: rest =>
    if n = endName then readToEnd endName (depth + 1) rest else readToEnd endName depth rest
  | depth, XEvent.close n :: rest =>
    if n = endName then
      match depth with
      | 0 => some rest
      | d + 1 => readToEnd endName d rest
    else readToEnd endName depth rest
  | depth, _ :: rest => readToEnd endName depth rest

/-- quick_xml Reader::read_text: if the next event is a Text, return its
content after consuming up to the matching End tag; if it is immediately
the matching End tag, return the empty string; any other next event is an
error (unwrapped into a panic by the Rust code, hence none). -/
def readText (endName : String) (evs : List XEvent) : Option (String × List XEvent) :=
  match evs with
  | XEvent.text t :: rest => (readToEnd endName 0 rest).map (fun r => (t, r))
  | XEvent.close n :: rest => if n = endName then some ("", rest) else none
  | _ => none

/-- End-of-Item handler (main.rs lines 87-150): clear in_script, increment
decompiled, run the transformation block on the current script_source, and
record the finalized candidate. -/
def finalizeCandidate (oracle : Oracle) (st : ScanState) : ScanState :=
  let tr := transform oracle st.script_source
  { st with
    in_script := false,
    decompiled := st.decompiled + 1,
    script_source := tr.source,
    calls := st.calls + (if tr.called then 1 else 0),
    finalized := st.finalized ++ [(st.script_name, tr.source)] }

/-- One iteration of main's loop on the next event, mirroring the Rust
match arms in order. The string-field arm may consume further events from
rest through read_text; a read_text error aborts (panic in Rust). -/
def scanStep (oracle : Oracle) (st : ScanState) (ev : XEvent) (rest : List XEvent) :
    Option (ScanState × List XEvent) :=
  match ev with
  | XEvent.start n attrs =>
    if n = "Item" then
      match findAttr attrs "class" with
      | some cls =>
        if recognizedClass cls then
          some ({ st with in_script := true, total := st.total + 1 }, rest)
        else
          some (st, rest)
      | none => some (st, rest)
    else if st.in_script = true ∧ n = "Properties" then
      some ({ st with script_name := "", script_source := "" }, rest)
    else if st.in_script = true ∧ n = "string" then
      match findAttr attrs "name" with
      | some nm =>
        if nm = "Name" then
          (readText n rest).map (fun p => ({ st with script_name := p.1 }, p.2))
        else if nm = "Source" then
          (readText n rest).map (fun p => ({ st with script_source := p.1 }, p.2))
        else
          some (st, rest)
      | none => some (st, rest)
    else
      some (st, rest)
  | XEvent.close n =>
    if st.in_script = true ∧ n = "Item" then
      some (finalizeCandidate oracle st, rest)
    else
      some (st, rest)
  | XEvent.text _ => some (st, rest)
  | XEvent.other => some (st, rest)

/-- The event loop, fuel-indexed; fuel larger than the event count is
always sufficient since every iteration consumes at least one event. An
empty event list is Event::Eof, which breaks the loop. -/
def scanLoop (oracle : Oracle) : Nat → ScanState → List XEvent → Option ScanState
  | 0, _, _ => none
  | _ + 1, st, [] => some st
  | fuel + 1, st, ev :: rest =>
    match scanStep oracle st ev rest with
    | some (st2, rest2) => scanLoop oracle fuel st2 rest2
    | none => none

/-- Run the whole pass from the initial locals. -/
def scan (oracle : Oracle) (evs : List XEvent) : Option ScanState :=
  scanLoop oracle (evs.length + 1) initState evs

/-- The buffer handed to File::create(..).write_all at end of run
(main.rs lines 160-165). -/
def writtenOutput (oracle : Oracle) (evs : List XEvent) : Option (List UInt8) :=
  (scan oracle evs).map (fun st => st.output)

/-- A start event that enters a candidate: an Item tag whose class
attribute is one of the three recognized values. -/
def isCandidateOpen : XEvent → Bool
  | XEvent.start n attrs =>
    n = "Item" && ((findAttr attrs "class").map recognizedClass).getD false
  | _ => false

/-- An event that falls through every guard of the match: a start tag named
neither Item, Properties nor string, a close tag not named Item, a text
event, or any other event kind. -/
def isStructurallyIgnored : XEvent → Bool
  | XEvent.start n _ => n ≠ "Item" && n ≠ "Properties" && n ≠ "string"
  | XEvent.close n => n ≠ "Item"
  | XEvent.text _ => true
  | XEvent.other => true

/-- A fixed oracle used by concrete runs that must not depend on the
service: every call fails at transport. -/
def oracleDown : Oracle := fun _ => SendResult.failure "connection refused"

/-! ## Helper lemmas about one loop iteration -/

/-- No arm of the loop ever appends to the output buffer. -/
theorem scanStep_output (oracle : Oracle) (st : ScanState) (ev : XEvent)
    (rest : List XEvent) (st2 : ScanState) (rest2 : List XEvent)
    (h : scanStep oracle st ev rest = some (st2, rest2)) :
    st2.output = st.output := by
  rcases ev with ⟨n, attrs⟩ | n | s | _ <;> simp only [scanStep] at h
  · repeat' split at h
    all_goals
      first
      | (obtain ⟨a, -, h2⟩ := Option.map_eq_some'.mp h
         obtain ⟨h3, -⟩ := Prod.mk.injEq .. ▸ h2
         subst h3
         rfl)
      | (obtain ⟨h3, -⟩ := Prod.mk.injEq .. ▸ Option.some.injEq .. ▸ h
         subst h3
         rfl)
  · split at h
    · obtain ⟨h3, -⟩ := Prod.mk.injEq .. ▸ Option.some.injEq .. ▸ h
      subst h3
      rfl
    · obtain ⟨h3, -⟩ := Prod.mk.injEq .. ▸ Option.some.injEq .. ▸ h
      subst h3
      rfl
  · obtain ⟨h3, -⟩ := Prod.mk.injEq .. ▸ Option.some.injEq .. ▸ h
    subst h3
    rfl
  · obtain ⟨h3, -⟩ := Prod.mk.injEq .. ▸ Option.some.injEq .. ▸ h
    subst h3
    rfl

/-- Outside a candidate, any event that is not a recognized Item open is a
pure no-op for the whole iteration. -/
theorem scanStep_noop (oracle : Oracle) (st : ScanState) (ev : XEvent)
    (rest : List XEvent) (hin : st.in_script = false)
    (hev : isCandidateOpen ev = false) :
    scanStep oracle st ev rest = some (st, rest) := by
  rcases ev with ⟨n, attrs⟩ | n | s | _
  · simp only [isCandidateOpen, Bool.and_eq_false_iff, decide_eq_false_iff_not] at hev
    simp only [scanStep, hin]
    by_cases hn : n = "Item"
    · rw [if_pos hn]
      rcases hA : findAttr attrs "class" with _ | cls
      · rfl
      · rcases hev with hev | hev
        · exact absurd hn hev
        · rw [hA] at hev
          simp only [Option.map_some', Option.getD_some] at hev
          simp [hev]
    · rw [if_neg hn]
      simp
  · simp [scanStep, hin]
  · simp [scanStep]
  · simp [scanStep]

/-! ## Helper lemmas about the whole loop -/

/-- The output buffer survives the loop untouched. -/
theorem scanLoop_output (oracle : Oracle) :
    ∀ (fuel : Nat) (st : ScanState) (evs : List XEvent) (st2 : ScanState),
      scanLoop oracle fuel st evs = some st2 → st2.output = st.output := by
  intro fuel
  induction fuel with
  | zero => intro st evs st2 h; simp [scanLoop] at h
  | succ n ih =>
    intro st evs st2 h
    cases evs with
    | nil =>
      simp only [scanLoop, Option.some.injEq] at h
      subst h; rfl
    | cons ev rest =>
      simp only [scanLoop] at h
      rcases hs : scanStep oracle st ev rest with _ | ⟨st3, rest3⟩ <;> rw [hs] at h
      · simp at h
      · exact (ih st3 rest3 st2 h).trans
          (scanStep_output oracle st ev rest st3 rest3 hs)

/-- With no candidate opens and the flag down, the loop returns its input
state unchanged (given enough fuel). -/
theorem scanLoop_noop (oracle : Oracle) :
    ∀ (evs : List XEvent) (fuel : Nat) (st : ScanState),
      evs.length < fuel → st.in_script = false →
      (∀ ev ∈ evs, isCandidateOpen ev = false) →
      scanLoop oracle fuel st evs = some st := by
  intro evs
  induction evs with
  | nil =>
    intro fuel st hfuel _ _
    cases fuel with
    | zero => omega
    | succ n => rfl
  | cons ev rest ih =>
    intro fuel st hfuel hin hall
    cases fuel with
    | zero => simp at hfuel
    | succ n =>
      have hstep := scanStep_noop oracle st ev rest hin
        (hall ev (List.mem_cons_self ev rest))
      simp only [scanLoop, hstep]
      exact ih n st (by simpa using hfuel) hin
        (fun e he => hall e (List.mem_cons_of_mem ev he))

/-! ## Claim theorems -/

/-- C1: for every input document, the output buffer written to the output
file at end of run is never populated: whenever the pass completes, the
persisted bytes are exactly the empty buffer, regardless of how many
candidates were seen or transformed. -/
theorem output_file_always_empty (oracle : Oracle) (evs : List XEvent)
    (out : List UInt8) (h : writtenOutput oracle evs = some out) : out = [] := by
  unfold writtenOutput scan at h
  obtain ⟨st, hst, hout⟩ := Option.map_eq_some'.mp h
  rw [← hout]
  exact scanLoop_output oracle (evs.length + 1) initState evs st hst

/-- Witness for C1 at a concrete document with one transformed candidate. -/
theorem output_file_always_empty_witness :
    writtenOutput oracleDown
      (XEvent.start "Item" (("class", "Script") :: []) :: XEvent.close "Item" :: []) =
      some [] ∧ ([] : List UInt8) = [] :=
  ⟨rfl, output_file_always_empty oracleDown
    (XEvent.start "Item" (("class", "Script") :: []) :: XEvent.close "Item" :: []) [] rfl⟩

/-- C8: a document with no recognized candidate open leaves total and
decompiled at zero and performs no service call. -/
theorem no_candidates_all_zero (oracle : Oracle) (evs : List XEvent)
    (h : ∀ ev ∈ evs, isCandidateOpen ev = false) :
    ∃ st, scan oracle evs = some st ∧ st.total = 0 ∧ st.decompiled = 0 ∧
      st.calls = 0 := by
  refine ⟨initState, ?_, rfl, rfl, rfl⟩
  exact scanLoop_noop oracle evs (evs.length + 1) initState (by omega) rfl h

/-- Witness for C8 on a document with structure but no recognized class. -/
theorem no_candidates_all_zero_witness :
    ∃ st, scan oracleDown
        (XEvent.start "Item" (("class", "Part") :: []) :: XEvent.start "Properties" [] ::
          XEvent.close "Properties" :: XEvent.close "Item" :: []) = some st ∧
      st.total = 0 ∧ st.decompiled = 0 ∧ st.calls = 0 :=
  no_candidates_all_zero oracleDown
    (XEvent.start "Item" (("class", "Part") :: []) :: XEvent.start "Properties" [] ::
      XEvent.close "Properties" :: XEvent.close "Item" :: []) (by decide)

/-- The statuses the code groups as rejections carrying the reply body
(TOO_MANY_REQUESTS, PAYMENT_REQUIRED, UNAUTHORIZED). -/
def isRejectionStatus : HttpStatus → Bool
  | HttpStatus.paymentRequired => true
  | HttpStatus.tooManyRequests => true
  | HttpStatus.unauthorized => true
  | _ => false

/-- C5: a payload with a bytecode match and a success reply with readable
body becomes watermark, newline, returned body, where the watermark joins
the first six lines of the original payload. -/
theorem success_reply_rewrites_source (oracle : Oracle) (src bc body : String)
    (hbc : findBytecode src = some bc)
    (hreply : oracle bc = SendResult.success { status := HttpStatus.ok, body := some body }) :
    (transform oracle src).source =
      String.intercalate "\n" ((rustLines src).take 6) ++ "\n" ++ body := by
  simp only [transform, hbc, hreply]

/-- Witness for C5: the concrete scenario of the spec. -/
theorem success_reply_rewrites_source_witness :
    (transform
        (fun _ => SendResult.success { status := HttpStatus.ok, body := some "print(1)" })
        "-- Bytecode (Base64):\n-- QUJD\n\nlocal x = 1").source =
      String.intercalate "\n"
        ((rustLines "-- Bytecode (Base64):\n-- QUJD\n\nlocal x = 1").take 6) ++
        "\n" ++ "print(1)" :=
  success_reply_rewrites_source
    (fun _ => SendResult.success { status := HttpStatus.ok, body := some "print(1)" })
    "-- Bytecode (Base64):\n-- QUJD\n\nlocal x = 1" "QUJD" "print(1)" (by decide) rfl

/-- C6: a payload with no bytecode match triggers no service call and is
left identical. -/
theorem no_match_no_call (oracle : Oracle) (src : String)
    (h : findBytecode src = none) :
    (transform oracle src).source = src ∧ (transform oracle src).called = false := by
  simp [transform, h]

/-- Witness for C6 on a plain source text. -/
theorem no_match_no_call_witness :
    (transform oracleDown "local x = 1").source = "local x = 1" ∧
      (transform oracleDown "local x = 1").called = false :=
  no_match_no_call oracleDown "local x = 1" (by decide)

/-- C7: when the reply is anything but a success status (or the send fails
at transport), the payload is left unchanged; and for the three rejection
statuses with a readable body, the body is surfaced verbatim as the
notice. -/
theorem non_success_leaves_source (oracle : Oracle) (src bc : String)
    (hbc : findBytecode src = some bc)
    (hnotok : ∀ r, oracle bc = SendResult.success r → r.status ≠ HttpStatus.ok) :
    (transform oracle src).source = src ∧
      (∀ r msg, oracle bc = SendResult.success r →
        isRejectionStatus r.status = true → r.body = some msg →
        (transform oracle src).notice = some msg) := by
  rcases hreply : oracle bc with ⟨status, body⟩ | e
  · have hne := hnotok _ hreply
    rcases status with _ | _ | _ | _ | _ | _ | code
    · exact absurd rfl hne
    all_goals
      refine ⟨by simp only [transform, hbc, hreply], ?_⟩
      intro r msg hr hrej hbody
      cases hr
      first
      | (simp only [transform, hbc, hreply]
         simp only at hbody
         simp [hbody]
         done)
      | simp [isRejectionStatus] at hrej
  · refine ⟨by simp only [transform, hbc, hreply], ?_⟩
    intro r msg hr hrej hbody
    exact absurd hr (by simp)

/-- Witness for C7: a rate-limited reply with a readable body. -/
theorem non_success_leaves_source_witness :
    (transform
        (fun _ => SendResult.success { status := HttpStatus.tooManyRequests, body := some "slow down" })
        "-- Bytecode (Base64):\n-- QUJD\n\nlocal x = 1").source =
        "-- Bytecode (Base64):\n-- QUJD\n\nlocal x = 1" ∧
      (∀ r msg,
        (fun (_ : String) => SendResult.success { status := HttpStatus.tooManyRequests, body := some "slow down" }) "QUJD" =
          SendResult.success r →
        isRejectionStatus r.status = true → r.body = some msg →
        (transform
          (fun _ => SendResult.success { status := HttpStatus.tooManyRequests, body := some "slow down" })
          "-- Bytecode (Base64):\n-- QUJD\n\nlocal x = 1").notice = some msg) :=
  non_success_leaves_source
    (fun _ => SendResult.success { status := HttpStatus.tooManyRequests, body := some "slow down" })
    "-- Bytecode (Base64):\n-- QUJD\n\nlocal x = 1" "QUJD" (by decide)
    (fun r hr => by cases hr; simp)

/-- A successful match at a position captures exactly the rest of the
capture line: the greedy dot cannot cross a newline. -/
theorem extractAt_capture (cs cap : List Char) (h : extractAt cs = some cap) :
    cap = (cs.drop bytecodeHeader.length).takeWhile (fun c => c ≠ '\n') := by
  simp only [extractAt] at h
  split at h
  · split at h
    · exact (Option.some.injEq .. ▸ h).symm
    · exact absurd h (by simp)
  · exact absurd h (by simp)

/-- findCapture returns the match at the least position admitting one. -/
theorem findCapture_leftmost :
    ∀ (cs : List Char) (i : Nat) (cap : List Char),
      extractAt (cs.drop i) = some cap →
      (∀ j, j < i → extractAt (cs.drop j) = none) →
      findCapture cs = some cap := by
  intro cs
  induction cs with
  | nil =>
    intro i cap hm _
    simp only [List.drop_nil] at hm
    simpa [findCapture] using hm
  | cons c t ih =>
    intro i cap hm hmin
    cases i with
    | zero =>
      rw [List.drop_zero] at hm
      simp [findCapture, hm]
    | succ k =>
      have h0 : extractAt (c :: t) = none := by simpa using hmin 0 (Nat.succ_pos k)
      simp only [findCapture, h0]
      exact ih k cap hm (fun j hj => hmin (j + 1) (Nat.succ_lt_succ hj))

/-- C10: extraction selects the leftmost occurrence of the pattern, the
captured content is exactly the remainder of the capture line after the
header (so after the "-- " prefix), and it never contains a newline. -/
theorem extraction_leftmost_single_line (cs : List Char) (i : Nat) (cap : List Char)
    (hmatch : extractAt (cs.drop i) = some cap)
    (hmin : ∀ j, j < i → extractAt (cs.drop j) = none) :
    findCapture cs = some cap ∧
      cap = ((cs.drop i).drop bytecodeHeader.length).takeWhile (fun c => c ≠ '\n') ∧
      '\n' ∉ cap := by
  refine ⟨findCapture_leftmost cs i cap hmatch hmin, extractAt_capture _ _ hmatch, ?_⟩
  intro hmem
  rw [extractAt_capture _ _ hmatch] at hmem
  have hkeep := List.mem_takeWhile_imp hmem
  simp at hkeep

/-- Witness for C10 at the start of a concrete source text. -/
theorem extraction_leftmost_single_line_witness :
    findCapture ("-- Bytecode (Base64):\n-- AA\n\nrest").data = some ('A' :: 'A' :: []) :=
  (extraction_leftmost_single_line ("-- Bytecode (Base64):\n-- AA\n\nrest").data 0
    ('A' :: 'A' :: []) (by decide) (fun j hj => absurd hj (Nat.not_lt_zero j))).1

/-! ## Concrete documents exercising nesting -/

/-- A recognized Item nested directly inside another recognized Item. -/
def nestedScriptDoc : List XEvent :=
  XEvent.start "Item" (("class", "Script") :: []) ::
    XEvent.start "Item" (("class", "Script") :: []) ::
    XEvent.close "Item" :: XEvent.close "Item" :: []

/-- A Script candidate named Main containing a nested unrecognized Item
(class Part) that carries its own Properties block. -/
def nestedPartDoc : List XEvent :=
  XEvent.start "Item" (("class", "Script") :: []) ::
    XEvent.start "Properties" [] ::
    XEvent.start "string" (("name", "Name") :: []) ::
    XEvent.text "Main" ::
    XEvent.close "string" ::
    XEvent.start "Item" (("class", "Part") :: []) ::
    XEvent.start "Properties" [] ::
    XEvent.close "Item" ::
    XEvent.close "Item" :: []

/-- A finished candidate named A followed by a second recognized open. -/
def staleFieldsDoc : List XEvent :=
  XEvent.start "Item" (("class", "Script") :: []) ::
    XEvent.start "Properties" [] ::
    XEvent.start "string" (("name", "Name") :: []) ::
    XEvent.text "A" ::
    XEvent.close "string" ::
    XEvent.close "Item" ::
    XEvent.start "Item" (("class", "Script") :: []) :: []

/-- C2 counterexample: two recognized candidates, yet the decompiled
counter ends at one, because the inner candidate's close event finalizes
the outer flag and the outer close then finds the flag cleared — so the
counter does not increment exactly once at each candidate's own matching
close. -/
theorem decompiled_not_once_per_candidate :
    (scan oracleDown nestedScriptDoc).map (fun st => (st.total, st.decompiled)) =
      some (2, 1) := by
  decide

/-- C2 as amended: the decompiled counter increments by exactly one at
every End event named Item handled while the inside-candidate flag is set
(matching is by element name only, so this can be a nested Item's close),
and never changes on any other event. -/
theorem decompiled_increment_characterization (oracle : Oracle) (st : ScanState)
    (ev : XEvent) (rest rest2 : List XEvent) (st2 : ScanState)
    (h : scanStep oracle st ev rest = some (st2, rest2)) :
    st2.decompiled = st.decompiled +
      (if st.in_script = true ∧ ev = XEvent.close "Item" then 1 else 0) := by
  rcases ev with ⟨n, attrs⟩ | n | s | _
  · rw [if_neg (by rintro ⟨-, h2⟩; cases h2)]
    simp only [scanStep] at h
    repeat' split at h
    all_goals
      first
      | (obtain ⟨a, -, h2⟩ := Option.map_eq_some'.mp h
         obtain ⟨h3, -⟩ := Prod.mk.injEq .. ▸ h2
         subst h3
         simp)
      | (obtain ⟨h3, -⟩ := Prod.mk.injEq .. ▸ Option.some.injEq .. ▸ h
         subst h3
         simp)
  · simp only [scanStep] at h
    split at h
    · rename_i hguard
      obtain ⟨hg1, hg2⟩ := hguard
      subst hg2
      obtain ⟨h3, -⟩ := Prod.mk.injEq .. ▸ Option.some.injEq .. ▸ h
      subst h3
      rw [if_pos ⟨hg1, rfl⟩]
      simp [finalizeCandidate]
    · rename_i hguard
      obtain ⟨h3, -⟩ := Prod.mk.injEq .. ▸ Option.some.injEq .. ▸ h
      subst h3
      rw [if_neg (fun hc => hguard ⟨hc.1, by injection hc.2⟩)]
      simp
  · rw [if_neg (by rintro ⟨-, h2⟩; cases h2)]
    obtain ⟨h3, -⟩ := Prod.mk.injEq .. ▸ Option.some.injEq .. ▸ h
    subst h3
    simp
  · rw [if_neg (by rintro ⟨-, h2⟩; cases h2)]
    obtain ⟨h3, -⟩ := Prod.mk.injEq .. ▸ Option.some.injEq .. ▸ h
    subst h3
    simp

/-- Witness for C2 as amended: one in-candidate Item close increments. -/
theorem decompiled_increment_characterization_witness :
    ({ initState with in_script := true } : ScanState).in_script = true ∧
      (finalizeCandidate oracleDown { initState with in_script := true }).decompiled =
        ({ initState with in_script := true } : ScanState).decompiled +
          (if ({ initState with in_script := true } : ScanState).in_script = true ∧
              XEvent.close "Item" = XEvent.close "Item" then 1 else 0) :=
  ⟨rfl, decompiled_increment_characterization oracleDown
    { initState with in_script := true } (XEvent.close "Item") [] []
    (finalizeCandidate oracleDown { initState with in_script := true }) rfl⟩

/-- C3 counterexample: the candidate named Main contains a nested Part
Item with its own Properties block; the nested Properties open resets the
scratch fields and the nested Item close finalizes the candidate, so the
recorded candidate carries an empty identifier instead of Main. -/
theorem nested_elements_desynchronize :
    (scan oracleDown nestedPartDoc).map
        (fun st => (st.finalized, st.total, st.decompiled)) =
      some ((("", "") :: []), 1, 1) := by
  decide

/-- C3 as amended: only events named Item, Properties or string (and Item
closes) can touch the scanner state; any open of another name, close of
another name, text or other event is consumed with the state and the
remaining stream unchanged. Matching is by name only, so nested Item,
Properties or string elements inside a candidate do alter the state. -/
theorem ignored_events_leave_state (oracle : Oracle) (st : ScanState) (ev : XEvent)
    (rest : List XEvent) (h : isStructurallyIgnored ev = true) :
    scanStep oracle st ev rest = some (st, rest) := by
  rcases ev with ⟨n, attrs⟩ | n | s | _
  · simp only [isStructurallyIgnored, Bool.and_eq_true, decide_eq_true_eq] at h
    obtain ⟨⟨h1, h2⟩, h3⟩ := h
    simp [scanStep, h1, h2, h3]
  · simp only [isStructurallyIgnored, decide_eq_true_eq] at h
    simp [scanStep, h]
  · rfl
  · rfl

/-- Witness for C3 as amended: an unrelated open inside a candidate. -/
theorem ignored_events_leave_state_witness :
    isStructurallyIgnored (XEvent.start "Folder" []) = true ∧
      scanStep oracleDown { initState with in_script := true }
          (XEvent.start "Folder" []) [] =
        some ({ initState with in_script := true }, []) :=
  ⟨rfl, ignored_events_leave_state oracleDown { initState with in_script := true }
    (XEvent.start "Folder" []) [] rfl⟩

/-- C4 counterexample: after a first candidate named A is finalized, a
second recognized open event is processed; immediately afterwards the
identifier scratch field still holds A, not the empty string, because the
recognized-open arm does not reset the fields. -/
theorem recognized_open_does_not_reset :
    (scan oracleDown staleFieldsDoc).map (fun st => (st.in_script, st.script_name)) =
      some (true, "A") := by
  decide

/-- C4 as amended: a recognized open event sets the inside-candidate flag
and increments the total count but leaves the identifier and payload
scratch fields exactly as they were; they are only reset when a
Properties open is later handled inside the candidate. -/
theorem recognized_open_sets_flag_keeps_fields (oracle : Oracle) (st : ScanState)
    (attrs : List (String × String)) (rest : List XEvent) (cls : String)
    (hcls : findAttr attrs "class" = some cls) (hrec : recognizedClass cls = true) :
    scanStep oracle st (XEvent.start "Item" attrs) rest =
      some ({ st with in_script := true, total := st.total + 1 }, rest) := by
  simp [scanStep, hcls, hrec]

/-- Witness for C4 as amended at a concrete recognized open. -/
theorem recognized_open_sets_flag_keeps_fields_witness :
    findAttr (("class", "LocalScript") :: []) "class" = some "LocalScript" ∧
      recognizedClass "LocalScript" = true ∧
      scanStep oracleDown { initState with script_name := "stale" }
          (XEvent.start "Item" (("class", "LocalScript") :: [])) [] =
        some ({ { initState with script_name := "stale" } with
          in_script := true,
          total := ({ initState with script_name := "stale" } : ScanState).total + 1 }, []) :=
  ⟨rfl, rfl, recognized_open_sets_flag_keeps_fields oracleDown
    { initState with script_name := "stale" } (("class", "LocalScript") :: []) []
    "LocalScript" rfl rfl⟩

/-- The inductive counter invariant: decompiled, plus one for a pending
open candidate, never exceeds total. -/
def counterInvariant (st : ScanState) : Prop :=
  st.decompiled + (if st.in_script = true then 1 else 0) ≤ st.total

/-- One iteration preserves the counter invariant. -/
theorem scanStep_invariant (oracle : Oracle) (st : ScanState) (ev : XEvent)
    (rest rest2 : List XEvent) (st2 : ScanState)
    (h : scanStep oracle st ev rest = some (st2, rest2))
    (hI : counterInvariant st) : counterInvariant st2 := by
  rcases ev with ⟨n, attrs⟩ | n | s | _
  · simp only [scanStep] at h
    repeat' split at h
    all_goals
      first
      | (obtain ⟨a, -, h2⟩ := Option.map_eq_some'.mp h
         obtain ⟨h3, -⟩ := Prod.mk.injEq .. ▸ h2
         subst h3
         simp only [counterInvariant] at hI ⊢
         split_ifs at hI ⊢ <;> simp_all)
      | (obtain ⟨h3, -⟩ := Prod.mk.injEq .. ▸ Option.some.injEq .. ▸ h
         subst h3
         simp only [counterInvariant] at hI ⊢
         split_ifs at hI ⊢ <;> simp_all <;> omega)
  · simp only [scanStep] at h
    split at h
    · rename_i hguard
      obtain ⟨h3, -⟩ := Prod.mk.injEq .. ▸ Option.some.injEq .. ▸ h
      subst h3
      simp only [counterInvariant, finalizeCandidate] at hI ⊢
      rw [hguard.1] at hI
      simp_all
    · obtain ⟨h3, -⟩ := Prod.mk.injEq .. ▸ Option.some.injEq .. ▸ h
      subst h3
      exact hI
  · obtain ⟨h3, -⟩ := Prod.mk.injEq .. ▸ Option.some.injEq .. ▸ h
    subst h3
    exact hI
  · obtain ⟨h3, -⟩ := Prod.mk.injEq .. ▸ Option.some.injEq .. ▸ h
    subst h3
    exact hI

/-- The loop preserves the counter invariant. -/
theorem scanLoop_invariant (oracle : Oracle) :
    ∀ (fuel : Nat) (st : ScanState) (evs : List XEvent) (st2 : ScanState),
      scanLoop oracle fuel st evs = some st2 → counterInvariant st →
      counterInvariant st2 := by
  intro fuel
  induction fuel with
  | zero => intro st evs st2 h; simp [scanLoop] at h
  | succ n ih =>
    intro st evs st2 h hI
    cases evs with
    | nil =>
      simp only [scanLoop, Option.some.injEq] at h
      subst h; exact hI
    | cons ev rest =>
      simp only [scanLoop] at h
      rcases hs : scanStep oracle st ev rest with _ | ⟨st3, rest3⟩ <;> rw [hs] at h
      · simp at h
      · exact ih st3 rest3 st2 h
          (scanStep_invariant oracle st ev rest rest3 st3 hs hI)

/-- C9: from any state satisfying the counter invariant (in particular the
initial one, and hence at every point of the pass), a completed run ends
with decompiled at most total: the decompiled counter only increments at a
close handled with the flag set, and the flag is only set by an event that
also increments total. -/
theorem decompiled_le_total (oracle : Oracle) (fuel : Nat) (st : ScanState)
    (evs : List XEvent) (st2 : ScanState) (hI : counterInvariant st)
    (h : scanLoop oracle fuel st evs = some st2) : st2.decompiled ≤ st2.total := by
  have h2 := scanLoop_invariant oracle fuel st evs st2 h hI
  simp only [counterInvariant] at h2
  split_ifs at h2 <;> omega

/-- The state in which the pass over nestedScriptDoc ends. -/
def nestedScriptFinal : ScanState :=
  { initState with
    total := 2
    decompiled := 1
    finalized := (("", "") :: []) }

/-- Witness for C9 on the nested-candidates document. -/
theorem decompiled_le_total_witness :
    counterInvariant initState ∧ nestedScriptFinal.decompiled ≤ nestedScriptFinal.total :=
  ⟨by simp [counterInvariant, initState], decompiled_le_total oracleDown
    (nestedScriptDoc.length + 1) initState nestedScriptDoc nestedScriptFinal
    (by simp [counterInvariant, initState]) (by decide)⟩

end OraclePostprocess
